import Mathlib

/-!
# Verification of the table-extraction core (`src/table_extraction.py`)

Shallow embedding of the table-boundary detection algorithm:

* `TableRange` — the value type `{start_row, start_col, stop_row, stop_col}`
  (Python `TableRange.__init__` unpacks two length-2 positions; grid indices
  are modelled as naturals).
* `TableRange.has_min_size` — Python integer subtraction is modelled by the
  cast to `Int`, so an inverted range really yields a negative difference.
* `TableRange.fill_inplace` — models `array[sr:spr, sc:spc] = value` on a
  numpy boolean array.  Numpy slice assignment clamps the slice to the
  array's shape, hence the shape guard.  The Python code mutates in place;
  the embedding returns the updated array.
* `TableRange.to_dataframe` — models `df.iloc[sr:spr, sc:spc]`.  Positional
  slicing in pandas follows Python slice semantics: out-of-range bounds are
  silently clamped to the frame's extent and no error is raised.
* `find_table_range_from_boolean_array_starting_at` — the rectangle-growth
  routine `_find_table_range_from_boolean_array_starting_at`.  The two
  `for … break` loops become the structurally recursive scans `scanCols` and
  `scanRows` over `List.range'` (the iteration space of Python `range`).
  The dtype check of the Python code is rendered by the type `BoolArray`.
* `find_all_table_range` — the row-major sweep, threading the working
  presence matrix through `findStep` (the body of the nested `for` loops).
-/

/-- A 2D boolean array (numpy `ndarray(dtype=bool)`): a shape together with
the cell contents.  Reads outside the shape never occur in the algorithm. -/
structure BoolArray where
  n_rows : Nat
  n_cols : Nat
  data : Nat → Nat → Bool

/-- The region where a table is located, `start_pos` inclusive, `stop_pos`
exclusive (class `TableRange`). -/
structure TableRange where
  start_row : Nat
  start_col : Nat
  stop_row : Nat
  stop_col : Nat
deriving DecidableEq

/-- `TableRange.__init__`, after its length-2 validation has passed: the two
positions are unpacked into the four bounds.  No other validation occurs. -/
def TableRange.ofPos (start_pos stop_pos : Nat × Nat) : TableRange :=
  { start_row := start_pos.1, start_col := start_pos.2,
    stop_row := stop_pos.1, stop_col := stop_pos.2 }

/-- `TableRange.has_min_size`: Python compares the integer differences
`stop - start` against the requested minima, returning `False` on the first
failing dimension. -/
def TableRange.has_min_size (tr : TableRange) (min_n_rows min_n_cols : Int) : Bool :=
  if (tr.stop_row : Int) - (tr.start_row : Int) < min_n_rows then false
  else if (tr.stop_col : Int) - (tr.start_col : Int) < min_n_cols then false
  else true

/-- `TableRange.fill_inplace`: `array[start_row:stop_row, start_col:stop_col]
= value`.  Numpy slice assignment touches exactly the cells of the rectangle
that lie inside the array's shape. -/
def TableRange.fill_inplace (tr : TableRange) (a : BoolArray) (value : Bool) : BoolArray :=
  { a with data := fun r c =>
      if r < a.n_rows ∧ c < a.n_cols ∧
         tr.start_row ≤ r ∧ r < tr.stop_row ∧ tr.start_col ≤ c ∧ c < tr.stop_col
      then value else a.data r c }

/-- A 2D grid of optional scalar values (the pandas DataFrame, as far as the
core algorithm observes it: a shape plus per-cell contents, `none` = NaN). -/
structure Grid where
  n_rows : Nat
  n_cols : Nat
  cell : Nat → Nat → Option Int

/-- `TableRange.to_dataframe`: `df.iloc[start_row:stop_row,
start_col:stop_col]`.  Positional slicing follows Python slice semantics:
each bound is clamped to the frame's extent, and the result is the window
between the clamped bounds; no bounds error is ever raised. -/
def TableRange.to_dataframe (tr : TableRange) (df : Grid) : Grid :=
  { n_rows := min tr.stop_row df.n_rows - min tr.start_row df.n_rows,
    n_cols := min tr.stop_col df.n_cols - min tr.start_col df.n_cols,
    cell := fun r c =>
      df.cell (min tr.start_row df.n_rows + r) (min tr.start_col df.n_cols + c) }

/-- `df.notna().to_numpy()`: the boolean presence matrix of a grid. -/
def presenceOf (df : Grid) : BoolArray :=
  { n_rows := df.n_rows, n_cols := df.n_cols,
    data := fun r c => (df.cell r c).isSome }

/-- The first loop of `_find_table_range_from_boolean_array_starting_at`:
`for col in range(start_col, last_col): if array_is_false_at[start_row, col]:
break ; else: stop_col = col + 1`.  The list argument is the remaining
iteration space of the Python `range`; the accumulator is `stop_col`. -/
def scanCols (a : BoolArray) (start_row : Nat) : List Nat → Nat → Nat
  | [], stop_col => stop_col
  | col :: rest, stop_col =>
      if a.data start_row col = false then stop_col
      else scanCols a start_row rest (col + 1)

/-- `array_is_false_at[row, start_col:stop_col].all()`: every cell of the
row-slice is missing.  (A slice with `stop ≤ start` is empty, and `all` of an
empty slice is true.) -/
def rowSliceAllFalse (a : BoolArray) (row start_col stop_col : Nat) : Bool :=
  (List.range' start_col (stop_col - start_col)).all fun col => !(a.data row col)

/-- The second loop of `_find_table_range_from_boolean_array_starting_at`:
`for row in range(start_row, last_row): if array_is_false_at[row,
start_col:stop_col].all(): break ; else: stop_row = row + 1`. -/
def scanRows (a : BoolArray) (start_col stop_col : Nat) : List Nat → Nat → Nat
  | [], stop_row => stop_row
  | row :: rest, stop_row =>
      if rowSliceAllFalse a row start_col stop_col then stop_row
      else scanRows a start_col stop_col rest (row + 1)

/-- `_find_table_range_from_boolean_array_starting_at(start_pos,
boolean_array)`: grow the column span along the anchor row, then grow the row
span over that column span.  `stop_row, stop_col` are initialised to
`start_pos` before the loops run. -/
def find_table_range_from_boolean_array_starting_at
    (start_pos : Nat × Nat) (a : BoolArray) : TableRange :=
  let start_row := start_pos.1
  let start_col := start_pos.2
  let stop_col :=
    scanCols a start_row (List.range' start_col (a.n_cols - start_col)) start_col
  let stop_row :=
    scanRows a start_col stop_col (List.range' start_row (a.n_rows - start_row)) start_row
  { start_row := start_row, start_col := start_col,
    stop_row := stop_row, stop_col := stop_col }

/-- The body of the nested sweep loops of `find_all_table_range`: at position
`(row, col)`, if the cell is still present, grow a range there; if it meets
the minimum size, append it and erase it from the working presence matrix. -/
def findStep (min_n_rows min_n_cols : Int)
    (st : List TableRange × BoolArray) (pos : Nat × Nat) :
    List TableRange × BoolArray :=
  if st.2.data pos.1 pos.2 = true then
    let tr := find_table_range_from_boolean_array_starting_at pos st.2
    if tr.has_min_size min_n_rows min_n_cols then
      (st.1 ++ [tr], tr.fill_inplace st.2 false)
    else st
  else st

/-- The iteration space of `for row in range(last_row): for col in
range(last_col)`, flattened in row-major order. -/
def rowMajorPositions (n_rows n_cols : Nat) : List (Nat × Nat) :=
  (List.range n_rows).flatMap fun row =>
    (List.range n_cols).map fun col => (row, col)

/-- `find_all_table_range(df, min_n_rows, min_n_cols)`: derive the presence
matrix, sweep it in row-major order, and return the accumulated list. -/
def find_all_table_range (df : Grid) (min_n_rows min_n_cols : Int) :
    List TableRange :=
  let a := presenceOf df
  ((rowMajorPositions a.n_rows a.n_cols).foldl
    (findStep min_n_rows min_n_cols) ([], a)).1

/-! ## Concrete test data from the specification scenarios -/

/-- The boolean array of Scenario 3 (also the unit test
`test_find_table_range_from_boolean_array_starting_at`). -/
def scenario3Rows : List (List Bool) :=
  [[false, true,  true,  false],
   [false, false, true,  false],
   [false, true,  false, false],
   [false, false, false, true],
   [false, false, false, false]]

/-- Scenario 3 as a `BoolArray` (5 rows, 4 columns). -/
def scenario3Array : BoolArray :=
  { n_rows := 5, n_cols := 4,
    data := fun r c => ((scenario3Rows.getD r []).getD c false) }

/-- The cells of the 3×5 grid of Scenarios 1 and 2 (string and numeric
values are irrelevant to the algorithm; distinct integers stand for them). -/
def scenarioGridRows : List (List (Option Int)) :=
  [[some 1, some 2,  none, none,   none],
   [some 0, some 10, none, some 3, some 4],
   [none,   none,    none, none,   some (-4)]]

/-- The 3×5 grid of Scenarios 1 and 2. -/
def scenarioGrid : Grid :=
  { n_rows := 3, n_cols := 5,
    cell := fun r c => ((scenarioGridRows.getD r []).getD c none) }

/-- A 1×1 grid used to exhibit the clamping behaviour of `to_dataframe`. -/
def gridOne : Grid :=
  { n_rows := 1, n_cols := 1,
    cell := fun r c => if r = 0 ∧ c = 0 then some 7 else none }

/-! ## Characterization of the column scan -/

lemma scanCols_ge (a : BoolArray) (sr : Nat) :
    ∀ n col, col ≤ scanCols a sr (List.range' col n) col := by
  intro n
  induction n with
  | zero =>
      intro col
      rw [List.range'_zero]
      simp [scanCols]
  | succ n ih =>
      intro col
      rw [List.range'_succ]
      simp only [scanCols]
      by_cases h : a.data sr col = false
      · rw [if_pos h]
      · rw [if_neg h]
        exact Nat.le_trans (Nat.le_succ col) (ih (col + 1))

lemma scanCols_le (a : BoolArray) (sr : Nat) :
    ∀ n col, scanCols a sr (List.range' col n) col ≤ col + n := by
  intro n
  induction n with
  | zero =>
      intro col
      rw [List.range'_zero]
      simp [scanCols]
  | succ n ih =>
      intro col
      rw [List.range'_succ]
      simp only [scanCols]
      by_cases h : a.data sr col = false
      · rw [if_pos h]; omega
      · rw [if_neg h]
        have := ih (col + 1)
        omega

lemma scanCols_true_below (a : BoolArray) (sr : Nat) :
    ∀ n col c, col ≤ c → c < scanCols a sr (List.range' col n) col →
      a.data sr c = true := by
  intro n
  induction n with
  | zero =>
      intro col c hle hlt
      rw [List.range'_zero] at hlt
      simp only [scanCols] at hlt
      omega
  | succ n ih =>
      intro col c hle hlt
      rw [List.range'_succ] at hlt
      simp only [scanCols] at hlt
      by_cases h : a.data sr col = false
      · rw [if_pos h] at hlt; omega
      · rw [if_neg h] at hlt
        rcases Nat.eq_or_lt_of_le hle with heq | hlt2
        · subst heq
          simpa using h
        · exact ih (col + 1) c hlt2 hlt

lemma scanCols_stop_false (a : BoolArray) (sr : Nat) :
    ∀ n col, scanCols a sr (List.range' col n) col < col + n →
      a.data sr (scanCols a sr (List.range' col n) col) = false := by
  intro n
  induction n with
  | zero =>
      intro col h
      rw [List.range'_zero] at h
      simp only [scanCols] at h
      omega
  | succ n ih =>
      intro col h
      rw [List.range'_succ] at h ⊢
      simp only [scanCols] at h ⊢
      by_cases hd : a.data sr col = false
      · rw [if_pos hd] at h ⊢
        exact hd
      · rw [if_neg hd] at h ⊢
        exact ih (col + 1) (by omega)

/-! ## Characterization of the row-slice test and the row scan -/

lemma rowSliceAllFalse_true_iff (a : BoolArray) (row sc spc : Nat) :
    rowSliceAllFalse a row sc spc = true ↔
      ∀ c, sc ≤ c → c < spc → a.data row c = false := by
  unfold rowSliceAllFalse
  rw [List.all_eq_true]
  constructor
  · intro h c h1 h2
    have hm : c ∈ List.range' sc (spc - sc) := by
      rw [List.mem_range'_1]; omega
    simpa using h c hm
  · intro h c hm
    rw [List.mem_range'_1] at hm
    have := h c hm.1 (by omega)
    simp [this]

lemma rowSliceAllFalse_false_iff (a : BoolArray) (row sc spc : Nat) :
    rowSliceAllFalse a row sc spc = false ↔
      ∃ c, sc ≤ c ∧ c < spc ∧ a.data row c = true := by
  rw [← Bool.not_eq_true, rowSliceAllFalse_true_iff]
  push_neg
  constructor
  · rintro ⟨c, h1, h2, h3⟩
    exact ⟨c, h1, h2, by simpa using h3⟩
  · rintro ⟨c, h1, h2, h3⟩
    exact ⟨c, h1, h2, by simp [h3]⟩

lemma scanRows_ge (a : BoolArray) (sc spc : Nat) :
    ∀ n row, row ≤ scanRows a sc spc (List.range' row n) row := by
  intro n
  induction n with
  | zero =>
      intro row
      rw [List.range'_zero]
      simp [scanRows]
  | succ n ih =>
      intro row
      rw [List.range'_succ]
      simp only [scanRows]
      by_cases h : rowSliceAllFalse a row sc spc = true
      · rw [if_pos h]
      · rw [if_neg h]
        exact Nat.le_trans (Nat.le_succ row) (ih (row + 1))

lemma scanRows_le (a : BoolArray) (sc spc : Nat) :
    ∀ n row, scanRows a sc spc (List.range' row n) row ≤ row + n := by
  intro n
  induction n with
  | zero =>
      intro row
      rw [List.range'_zero]
      simp [scanRows]
  | succ n ih =>
      intro row
      rw [List.range'_succ]
      simp only [scanRows]
      by_cases h : rowSliceAllFalse a row sc spc = true
      · rw [if_pos h]; omega
      · rw [if_neg h]
        have := ih (row + 1)
        omega

lemma scanRows_not_allfalse_below (a : BoolArray) (sc spc : Nat) :
    ∀ n row r, row ≤ r → r < scanRows a sc spc (List.range' row n) row →
      rowSliceAllFalse a r sc spc = false := by
  intro n
  induction n with
  | zero =>
      intro row r hle hlt
      rw [List.range'_zero] at hlt
      simp only [scanRows] at hlt
      omega
  | succ n ih =>
      intro row r hle hlt
      rw [List.range'_succ] at hlt
      simp only [scanRows] at hlt
      by_cases h : rowSliceAllFalse a row sc spc = true
      · rw [if_pos h] at hlt; omega
      · rw [if_neg h] at hlt
        rcases Nat.eq_or_lt_of_le hle with heq | hlt2
        · subst heq
          simpa using h
        · exact ih (row + 1) r hlt2 hlt

lemma scanRows_stop_allfalse (a : BoolArray) (sc spc : Nat) :
    ∀ n row, scanRows a sc spc (List.range' row n) row < row + n →
      rowSliceAllFalse a (scanRows a sc spc (List.range' row n) row) sc spc = true := by
  intro n
  induction n with
  | zero =>
      intro row h
      rw [List.range'_zero] at h
      simp only [scanRows] at h
      omega
  | succ n ih =>
      intro row h
      rw [List.range'_succ] at h ⊢
      simp only [scanRows] at h ⊢
      by_cases hd : rowSliceAllFalse a row sc spc = true
      · rw [if_pos hd] at h ⊢
        exact hd
      · rw [if_neg hd] at h ⊢
        exact ih (row + 1) (by omega)

/-! ## Properties of the rectangle-growth routine -/

lemma grow_stop_col_eq (sr sc : Nat) (a : BoolArray) :
    (find_table_range_from_boolean_array_starting_at (sr, sc) a).stop_col =
      scanCols a sr (List.range' sc (a.n_cols - sc)) sc := rfl

lemma grow_stop_row_eq (sr sc : Nat) (a : BoolArray) :
    (find_table_range_from_boolean_array_starting_at (sr, sc) a).stop_row =
      scanRows a sc
        (find_table_range_from_boolean_array_starting_at (sr, sc) a).stop_col
        (List.range' sr (a.n_rows - sr)) sr := rfl

lemma grow_stop_col_ge (sr sc : Nat) (a : BoolArray) :
    sc ≤ (find_table_range_from_boolean_array_starting_at (sr, sc) a).stop_col := by
  rw [grow_stop_col_eq]
  exact scanCols_ge a sr (a.n_cols - sc) sc

lemma grow_stop_col_le (sr sc : Nat) (a : BoolArray) (h : sc ≤ a.n_cols) :
    (find_table_range_from_boolean_array_starting_at (sr, sc) a).stop_col ≤ a.n_cols := by
  rw [grow_stop_col_eq]
  have := scanCols_le a sr (a.n_cols - sc) sc
  omega

lemma grow_header_true (sr sc : Nat) (a : BoolArray) :
    ∀ c, sc ≤ c →
      c < (find_table_range_from_boolean_array_starting_at (sr, sc) a).stop_col →
      a.data sr c = true := by
  intro c h1 h2
  rw [grow_stop_col_eq] at h2
  exact scanCols_true_below a sr (a.n_cols - sc) sc c h1 h2

lemma grow_stop_col_false (sr sc : Nat) (a : BoolArray)
    (h : (find_table_range_from_boolean_array_starting_at (sr, sc) a).stop_col < a.n_cols) :
    a.data sr (find_table_range_from_boolean_array_starting_at (sr, sc) a).stop_col
      = false := by
  rw [grow_stop_col_eq] at h ⊢
  apply scanCols_stop_false
  have := scanCols_ge a sr (a.n_cols - sc) sc
  omega

lemma grow_stop_row_ge (sr sc : Nat) (a : BoolArray) :
    sr ≤ (find_table_range_from_boolean_array_starting_at (sr, sc) a).stop_row := by
  rw [grow_stop_row_eq]
  exact scanRows_ge a sc _ (a.n_rows - sr) sr

lemma grow_stop_row_le (sr sc : Nat) (a : BoolArray) (h : sr ≤ a.n_rows) :
    (find_table_range_from_boolean_array_starting_at (sr, sc) a).stop_row ≤ a.n_rows := by
  rw [grow_stop_row_eq]
  have := scanRows_le a sc
    (find_table_range_from_boolean_array_starting_at (sr, sc) a).stop_col
    (a.n_rows - sr) sr
  omega

lemma grow_body_not_allfalse (sr sc : Nat) (a : BoolArray) :
    ∀ r, sr ≤ r →
      r < (find_table_range_from_boolean_array_starting_at (sr, sc) a).stop_row →
      rowSliceAllFalse a r sc
        (find_table_range_from_boolean_array_starting_at (sr, sc) a).stop_col = false := by
  intro r h1 h2
  rw [grow_stop_row_eq] at h2
  exact scanRows_not_allfalse_below a sc _ (a.n_rows - sr) sr r h1 h2

lemma grow_stop_row_allfalse (sr sc : Nat) (a : BoolArray)
    (h : (find_table_range_from_boolean_array_starting_at (sr, sc) a).stop_row < a.n_rows) :
    rowSliceAllFalse a
      (find_table_range_from_boolean_array_starting_at (sr, sc) a).stop_row sc
      (find_table_range_from_boolean_array_starting_at (sr, sc) a).stop_col = true := by
  rw [grow_stop_row_eq] at h ⊢
  apply scanRows_stop_allfalse
  have := scanRows_ge a sc
    (find_table_range_from_boolean_array_starting_at (sr, sc) a).stop_col
    (a.n_rows - sr) sr
  omega

/-! ## The sweep invariant -/

/-- Cell `(r, c)` lies inside the (half-open) rectangle of `tr`. -/
def TableRange.inRect (tr : TableRange) (r c : Nat) : Prop :=
  tr.start_row ≤ r ∧ r < tr.stop_row ∧ tr.start_col ≤ c ∧ c < tr.stop_col

/-- Two table ranges share no cell. -/
def disjointRect (t1 t2 : TableRange) : Prop :=
  ∀ r c, t1.inRect r c → t2.inRect r c → False

/-- Unfolded form of `findStep` on explicit components (the projections of
the state pair and of the position reduce definitionally). -/
lemma findStep_eq (mr mc : Int) (lst : List TableRange) (a : BoolArray) (r c : Nat) :
    findStep mr mc (lst, a) (r, c) =
      if a.data r c = true then
        if (find_table_range_from_boolean_array_starting_at (r, c) a).has_min_size mr mc
            = true then
          (lst ++ [find_table_range_from_boolean_array_starting_at (r, c) a],
           (find_table_range_from_boolean_array_starting_at (r, c) a).fill_inplace a false)
        else (lst, a)
      else (lst, a) := rfl

lemma fill_inplace_data (tr : TableRange) (a : BoolArray) (v : Bool) (r c : Nat) :
    (tr.fill_inplace a v).data r c =
      if r < a.n_rows ∧ c < a.n_cols ∧ tr.start_row ≤ r ∧ r < tr.stop_row ∧
         tr.start_col ≤ c ∧ c < tr.stop_col then v else a.data r c := rfl

/-- What the sweep knows about every range already recorded in the result
list: the order invariant, in-bounds stop positions, the minimum size, a
fully present header row in the *original* presence matrix `a0`, a fully
erased rectangle in the *working* matrix `a`, and that its anchor row is at
or above every position `q` still to be scanned. -/
def GoodRange (a0 : BoolArray) (mr mc : Int) (a : BoolArray)
    (q : List (Nat × Nat)) (tr : TableRange) : Prop :=
  tr.start_row ≤ tr.stop_row ∧ tr.start_col ≤ tr.stop_col ∧
  tr.stop_row ≤ a0.n_rows ∧ tr.stop_col ≤ a0.n_cols ∧
  tr.has_min_size mr mc = true ∧
  (∀ c, tr.start_col ≤ c → c < tr.stop_col → a0.data tr.start_row c = true) ∧
  (∀ r c, tr.inRect r c → a.data r c = false) ∧
  (∀ p, p ∈ q → tr.start_row ≤ p.1)

/-- The sweep invariant: the working matrix keeps the original shape, its
present cells are present in the original, every recorded range is good, and
the recorded ranges are pairwise disjoint. -/
def FinderInv (a0 : BoolArray) (mr mc : Int) (q : List (Nat × Nat))
    (lst : List TableRange) (a : BoolArray) : Prop :=
  a.n_rows = a0.n_rows ∧ a.n_cols = a0.n_cols ∧
  (∀ r c, a.data r c = true → a0.data r c = true) ∧
  (∀ tr, tr ∈ lst → GoodRange a0 mr mc a q tr) ∧
  lst.Pairwise disjointRect

lemma findStep_preserves_inv (a0 : BoolArray) (mr mc : Int) (r c : Nat)
    (q : List (Nat × Nat)) (lst : List TableRange) (a : BoolArray)
    (hp1 : r < a0.n_rows) (hp2 : c < a0.n_cols)
    (hq : ∀ x, x ∈ q → r ≤ x.1)
    (h : FinderInv a0 mr mc ((r, c) :: q) lst a) :
    FinderInv a0 mr mc q
      (findStep mr mc (lst, a) (r, c)).1 (findStep mr mc (lst, a) (r, c)).2 := by
  obtain ⟨hrows, hcols, hmono, hgood, hpair⟩ := h
  have hgoodq : ∀ tr, tr ∈ lst → GoodRange a0 mr mc a q tr := by
    intro tr htr
    obtain ⟨g1, g2, g3, g4, g5, g6, g7, g8⟩ := hgood tr htr
    exact ⟨g1, g2, g3, g4, g5, g6, g7, fun x hx => g8 x (List.mem_cons_of_mem _ hx)⟩
  rw [findStep_eq]
  by_cases hdata : a.data r c = true
  case neg =>
    rw [if_neg hdata]
    exact ⟨hrows, hcols, hmono, hgoodq, hpair⟩
  case pos =>
    rw [if_pos hdata]
    by_cases hmin :
        (find_table_range_from_boolean_array_starting_at (r, c) a).has_min_size mr mc = true
    case neg =>
      rw [if_neg hmin]
      exact ⟨hrows, hcols, hmono, hgoodq, hpair⟩
    case pos =>
      rw [if_pos hmin]
      show FinderInv a0 mr mc q
        (lst ++ [find_table_range_from_boolean_array_starting_at (r, c) a])
        ((find_table_range_from_boolean_array_starting_at (r, c) a).fill_inplace a false)
      set tr' := find_table_range_from_boolean_array_starting_at (r, c) a with htrdef
      have hsr : tr'.start_row = r := rfl
      have hsc : tr'.start_col = c := rfl
      have hsprle : tr'.stop_row ≤ a.n_rows := grow_stop_row_le r c a (by omega)
      have hspcle : tr'.stop_col ≤ a.n_cols := grow_stop_col_le r c a (by omega)
      have hss : tr'.start_row ≤ tr'.stop_row := grow_stop_row_ge r c a
      have hcc : tr'.start_col ≤ tr'.stop_col := grow_stop_col_ge r c a
      refine ⟨hrows, hcols, ?_, ?_, ?_⟩
      · intro ρ γ hργ
        rw [fill_inplace_data] at hργ
        by_cases hcond : ρ < a.n_rows ∧ γ < a.n_cols ∧ tr'.start_row ≤ ρ ∧
            ρ < tr'.stop_row ∧ tr'.start_col ≤ γ ∧ γ < tr'.stop_col
        · rw [if_pos hcond] at hργ
          exact absurd hργ (by simp)
        · rw [if_neg hcond] at hργ
          exact hmono ρ γ hργ
      · intro tr htr
        rcases List.mem_append.mp htr with hold | hnew
        · obtain ⟨g1, g2, g3, g4, g5, g6, g7, g8⟩ := hgood tr hold
          refine ⟨g1, g2, g3, g4, g5, g6, ?_,
            fun x hx => g8 x (List.mem_cons_of_mem _ hx)⟩
          intro ρ γ hin
          rw [fill_inplace_data]
          by_cases hcond : ρ < a.n_rows ∧ γ < a.n_cols ∧ tr'.start_row ≤ ρ ∧
              ρ < tr'.stop_row ∧ tr'.start_col ≤ γ ∧ γ < tr'.stop_col
          · rw [if_pos hcond]
          · rw [if_neg hcond]
            exact g7 ρ γ hin
        · have htreq : tr = tr' := by simpa using hnew
          subst htreq
          refine ⟨hss, hcc, by omega, by omega, hmin, ?_, ?_, ?_⟩
          · intro γ h1 h2
            rw [hsr]
            rw [hsc] at h1
            exact hmono r γ (grow_header_true r c a γ h1 h2)
          · intro ρ γ hin
            obtain ⟨i1, i2, i3, i4⟩ := hin
            rw [fill_inplace_data]
            rw [if_pos ⟨by omega, by omega, i1, i2, i3, i4⟩]
          · intro x hx
            rw [hsr]
            exact hq x hx
      · rw [List.pairwise_append]
        refine ⟨hpair, by simp, ?_⟩
        intro t1 ht1 t2 ht2
        have ht2' : t2 = tr' := by simpa using ht2
        subst ht2'
        intro ρ γ hin1 hin2
        obtain ⟨j1, j2, j3, j4⟩ := hin2
        obtain ⟨g1, g2, g3, g4, g5, g6, g7, g8⟩ := hgood t1 ht1
        have hanchor : t1.start_row ≤ r := g8 (r, c) (List.mem_cons_self _ _)
        obtain ⟨k1, k2, k3, k4⟩ := hin1
        have hfalse : a.data r γ = false := g7 r γ ⟨hanchor, by omega, k3, k4⟩
        rw [hsc] at j3
        have htrue : a.data r γ = true := grow_header_true r c a γ j3 j4
        rw [hfalse] at htrue
        simp at htrue

lemma foldl_findStep_inv (a0 : BoolArray) (mr mc : Int) :
    ∀ (q : List (Nat × Nat)) (lst : List TableRange) (a : BoolArray),
      (∀ p, p ∈ q → p.1 < a0.n_rows ∧ p.2 < a0.n_cols) →
      q.Pairwise (fun p x => p.1 ≤ x.1) →
      FinderInv a0 mr mc q lst a →
      FinderInv a0 mr mc []
        (q.foldl (findStep mr mc) (lst, a)).1
        (q.foldl (findStep mr mc) (lst, a)).2 := by
  intro q
  induction q with
  | nil => intro lst a _ _ h; exact h
  | cons p q ih =>
      intro lst a hb hp hinv
      obtain ⟨r, c⟩ := p
      rw [List.foldl_cons]
      rw [List.pairwise_cons] at hp
      have hstep := findStep_preserves_inv a0 mr mc r c q lst a
        (hb (r, c) (List.mem_cons_self _ _)).1
        (hb (r, c) (List.mem_cons_self _ _)).2
        (fun x hx => hp.1 x hx) hinv
      exact ih (findStep mr mc (lst, a) (r, c)).1 (findStep mr mc (lst, a) (r, c)).2
        (fun x hx => hb x (List.mem_cons_of_mem _ hx)) hp.2 hstep

lemma rowMajorPositions_succ (R C : Nat) :
    rowMajorPositions (R + 1) C =
      rowMajorPositions R C ++ ((List.range C).map fun col => (R, col)) := by
  unfold rowMajorPositions
  rw [List.range_succ, List.flatMap_append]
  simp

lemma mem_rowMajorPositions (R C : Nat) (p : Nat × Nat) :
    p ∈ rowMajorPositions R C → p.1 < R ∧ p.2 < C := by
  intro h
  unfold rowMajorPositions at h
  rw [List.mem_flatMap] at h
  obtain ⟨row, hrow, hmem⟩ := h
  rw [List.mem_map] at hmem
  obtain ⟨col, hcol, rfl⟩ := hmem
  exact ⟨List.mem_range.mp hrow, List.mem_range.mp hcol⟩

lemma rowMajorPositions_pairwise (R C : Nat) :
    (rowMajorPositions R C).Pairwise (fun p x => p.1 ≤ x.1) := by
  induction R with
  | zero => simp [rowMajorPositions]
  | succ R ih =>
      rw [rowMajorPositions_succ, List.pairwise_append]
      refine ⟨ih, ?_, ?_⟩
      · rw [List.pairwise_map]
        exact (List.pairwise_le_range C).imp fun _ => Nat.le_refl R
      · intro x hx y hy
        have hx1 := (mem_rowMajorPositions R C x hx).1
        rw [List.mem_map] at hy
        obtain ⟨col, _, rfl⟩ := hy
        exact Nat.le_of_lt hx1

/-- The full sweep invariant holds of the final state of
`find_all_table_range`. -/
lemma find_all_table_range_inv (g : Grid) (mr mc : Int) :
    FinderInv (presenceOf g) mr mc []
      (((rowMajorPositions (presenceOf g).n_rows (presenceOf g).n_cols).foldl
          (findStep mr mc) ([], presenceOf g)).1)
      (((rowMajorPositions (presenceOf g).n_rows (presenceOf g).n_cols).foldl
          (findStep mr mc) ([], presenceOf g)).2) := by
  apply foldl_findStep_inv
  · exact fun p hp => mem_rowMajorPositions _ _ p hp
  · exact rowMajorPositions_pairwise _ _
  · refine ⟨rfl, rfl, fun r c h => h, ?_, List.Pairwise.nil⟩
    intro tr htr
    exact absurd htr (List.not_mem_nil tr)

lemma find_all_table_range_eq_foldl (g : Grid) (mr mc : Int) :
    find_all_table_range g mr mc =
      ((rowMajorPositions (presenceOf g).n_rows (presenceOf g).n_cols).foldl
        (findStep mr mc) ([], presenceOf g)).1 := rfl

/-- Every range returned by the sweep satisfies the recorded invariant. -/
lemma mem_find_all_table_range_good (g : Grid) (mr mc : Int) (tr : TableRange)
    (h : tr ∈ find_all_table_range g mr mc) :
    GoodRange (presenceOf g) mr mc
      (((rowMajorPositions (presenceOf g).n_rows (presenceOf g).n_cols).foldl
          (findStep mr mc) ([], presenceOf g)).2) [] tr := by
  have hinv := find_all_table_range_inv g mr mc
  exact hinv.2.2.2.1 tr (by rw [find_all_table_range_eq_foldl] at h; exact h)

/-! ## Shared helper: arithmetic reading of the minimum-size test -/

lemma has_min_size_iff (tr : TableRange) (mr mc : Int) :
    tr.has_min_size mr mc = true ↔
      (mr ≤ (tr.stop_row : Int) - (tr.start_row : Int) ∧
       mc ≤ (tr.stop_col : Int) - (tr.start_col : Int)) := by
  unfold TableRange.has_min_size
  by_cases h1 : (tr.stop_row : Int) - (tr.start_row : Int) < mr
  · rw [if_pos h1]
    constructor
    · intro hf
      exact absurd hf (by simp)
    · rintro ⟨ha, _⟩
      omega
  · rw [if_neg h1]
    by_cases h2 : (tr.stop_col : Int) - (tr.start_col : Int) < mc
    · rw [if_pos h2]
      constructor
      · intro hf
        exact absurd hf (by simp)
      · rintro ⟨_, hb⟩
        omega
    · rw [if_neg h2]
      constructor
      · intro _
        exact ⟨by omega, by omega⟩
      · intro _
        rfl

/-! ## Claim theorems -/

/-- C1: for every boolean presence matrix and every in-bounds anchor
`(start_row, start_col)`, the growth routine returns the anchor as its start
position, `stop_col` is the first column `c ≥ start_col` whose anchor-row
cell is absent (or the column count if none: all cells below it are present,
and the cell at it, when in bounds, is absent), and `stop_row` is the first
row `r ≥ start_row` whose cells across `[start_col, stop_col)` are all
absent (or the row count if none).  In particular, on the Scenario-3 array
with anchor `(0, 1)` the result is the range `(0,1)-(3,3)`. -/
theorem find_table_range_starting_at_spec :
    (∀ (a : BoolArray) (sr sc : Nat), sr < a.n_rows → sc < a.n_cols →
      ∀ tr, tr = find_table_range_from_boolean_array_starting_at (sr, sc) a →
        tr.start_row = sr ∧ tr.start_col = sc ∧
        sc ≤ tr.stop_col ∧ tr.stop_col ≤ a.n_cols ∧
        (∀ c, sc ≤ c → c < tr.stop_col → a.data sr c = true) ∧
        (tr.stop_col < a.n_cols → a.data sr tr.stop_col = false) ∧
        sr ≤ tr.stop_row ∧ tr.stop_row ≤ a.n_rows ∧
        (∀ r, sr ≤ r → r < tr.stop_row →
          ∃ c, sc ≤ c ∧ c < tr.stop_col ∧ a.data r c = true) ∧
        (tr.stop_row < a.n_rows →
          ∀ c, sc ≤ c → c < tr.stop_col → a.data tr.stop_row c = false)) ∧
    find_table_range_from_boolean_array_starting_at (0, 1) scenario3Array =
      TableRange.mk 0 1 3 3 := by
  constructor
  · intro a sr sc hr hc tr htr
    subst htr
    refine ⟨rfl, rfl, grow_stop_col_ge sr sc a, grow_stop_col_le sr sc a (by omega),
      grow_header_true sr sc a, grow_stop_col_false sr sc a,
      grow_stop_row_ge sr sc a, grow_stop_row_le sr sc a (by omega), ?_, ?_⟩
    · intro r h1 h2
      have hrow := grow_body_not_allfalse sr sc a r h1 h2
      rw [rowSliceAllFalse_false_iff] at hrow
      exact hrow
    · intro h c h1 h2
      have hrow := grow_stop_row_allfalse sr sc a h
      rw [rowSliceAllFalse_true_iff] at hrow
      exact hrow c h1 h2
  · decide

/-- Witness for C1: the characterization applied to the Scenario-3 array at
the in-bounds anchor `(0, 1)`, and the concrete Scenario-3 result. -/
theorem find_table_range_starting_at_spec_witness :
    ((find_table_range_from_boolean_array_starting_at (0, 1) scenario3Array).start_row = 0 ∧
     (find_table_range_from_boolean_array_starting_at (0, 1) scenario3Array).start_col = 1) ∧
    find_table_range_from_boolean_array_starting_at (0, 1) scenario3Array =
      TableRange.mk 0 1 3 3 := by
  constructor
  · have h := find_table_range_starting_at_spec.1 scenario3Array 0 1 (by decide) (by decide)
      (find_table_range_from_boolean_array_starting_at (0, 1) scenario3Array) rfl
    exact ⟨h.1, h.2.1⟩
  · exact find_table_range_starting_at_spec.2

/-- C2: on the 3×5 scenario grid, `find_all_table_range` with minima `(1,1)`
returns exactly the ranges `(0,0)-(2,2)` and `(1,3)-(3,5)` in that order,
and with minima `(1,3)` it returns the empty list. -/
theorem find_all_table_range_scenarios :
    find_all_table_range scenarioGrid 1 1 =
      [TableRange.mk 0 0 2 2, TableRange.mk 1 3 3 5] ∧
    find_all_table_range scenarioGrid 1 3 = [] := by
  exact ⟨by decide, by decide⟩

/-- C3: for every grid and every pair of minima, the ranges returned by
`find_all_table_range` are pairwise disjoint: no cell lies inside the
rectangles of two distinct returned ranges. -/
theorem find_all_table_range_pairwise_disjoint (g : Grid) (mr mc : Int) :
    (find_all_table_range g mr mc).Pairwise disjointRect := by
  have hinv := find_all_table_range_inv g mr mc
  rw [find_all_table_range_eq_foldl]
  exact hinv.2.2.2.2

/-- C4: for every grid and minima, every returned range's anchor row is
fully present across its column span in the original grid. -/
theorem find_all_table_range_header_present (g : Grid) (mr mc : Int)
    (tr : TableRange) (h : tr ∈ find_all_table_range g mr mc) :
    ∀ c, tr.start_col ≤ c → c < tr.stop_col →
      (g.cell tr.start_row c).isSome = true := by
  have hgood := mem_find_all_table_range_good g mr mc tr h
  intro c h1 h2
  exact hgood.2.2.2.2.2.1 c h1 h2

/-- Witness for C4: the header cell `(0, 0)` of the first scenario range is
present in the scenario grid. -/
theorem find_all_table_range_header_present_witness :
    (scenarioGrid.cell 0 0).isSome = true :=
  find_all_table_range_header_present scenarioGrid 1 1 (TableRange.mk 0 0 2 2)
    (by decide) 0 (Nat.le_refl 0) (by decide)

/-- C5: `has_min_size` holds exactly when both integer dimension differences
meet their minima, and every range returned by `find_all_table_range`
satisfies it — a range meeting only one of the two minima is never
returned. -/
theorem find_all_table_range_min_size :
    (∀ (tr : TableRange) (mr mc : Int),
      tr.has_min_size mr mc = true ↔
        (mr ≤ (tr.stop_row : Int) - (tr.start_row : Int) ∧
         mc ≤ (tr.stop_col : Int) - (tr.start_col : Int))) ∧
    (∀ (g : Grid) (mr mc : Int) (tr : TableRange),
      tr ∈ find_all_table_range g mr mc → tr.has_min_size mr mc = true) := by
  constructor
  · exact has_min_size_iff
  · intro g mr mc tr h
    exact (mem_find_all_table_range_good g mr mc tr h).2.2.2.2.1

/-- Witness for C5: the first scenario range satisfies the minimum size it
was found under. -/
theorem find_all_table_range_min_size_witness :
    (TableRange.mk 0 0 2 2).has_min_size 1 1 = true :=
  find_all_table_range_min_size.2 scenarioGrid 1 1 (TableRange.mk 0 0 2 2) (by decide)

/-- C6: a sweep step whose candidate rectangle fails the minimum-size test
changes nothing — the result list and the working presence matrix are
returned exactly as they were (erasure happens only for accepted ranges; the
growth routine itself is a pure function of the matrix). -/
theorem findStep_rejected_candidate_frame (mr mc : Int) (r c : Nat)
    (lst : List TableRange) (a : BoolArray)
    (h : (find_table_range_from_boolean_array_starting_at (r, c) a).has_min_size mr mc
        = false) :
    findStep mr mc (lst, a) (r, c) = (lst, a) := by
  rw [findStep_eq]
  by_cases hdata : a.data r c = true
  · rw [if_pos hdata, if_neg (by rw [h]; simp)]
  · rw [if_neg hdata]

/-- Witness for C6: on the Scenario-3 array with minima `(3,3)` the
candidate anchored at `(0,1)` (3 rows but only 2 columns) is rejected and
the step leaves the state untouched. -/
theorem findStep_rejected_candidate_frame_witness :
    findStep 3 3 ([], scenario3Array) (0, 1) = ([], scenario3Array) :=
  findStep_rejected_candidate_frame 3 3 0 1 [] scenario3Array (by decide)

lemma to_dataframe_n_rows (tr : TableRange) (df : Grid) :
    (tr.to_dataframe df).n_rows =
      min tr.stop_row df.n_rows - min tr.start_row df.n_rows := rfl

lemma to_dataframe_n_cols (tr : TableRange) (df : Grid) :
    (tr.to_dataframe df).n_cols =
      min tr.stop_col df.n_cols - min tr.start_col df.n_cols := rfl

lemma to_dataframe_cell (tr : TableRange) (df : Grid) (i j : Nat) :
    (tr.to_dataframe df).cell i j =
      df.cell (min tr.start_row df.n_rows + i) (min tr.start_col df.n_cols + j) := rfl

/-- C7 counterexample: materializing the out-of-bounds range `(0,0)-(5,5)`
from a 1×1 grid raises no bounds error: pandas positional slicing silently
clamps the request, and the whole 1×1 grid comes back. -/
theorem to_dataframe_out_of_bounds_clamps :
    ((TableRange.mk 0 0 5 5).to_dataframe gridOne).n_rows = 1 ∧
    ((TableRange.mk 0 0 5 5).to_dataframe gridOne).n_cols = 1 ∧
    ((TableRange.mk 0 0 5 5).to_dataframe gridOne).cell 0 0 = some 7 := by
  refine ⟨rfl, rfl, by decide⟩

/-- C7 amended: `to_dataframe` silently clamps instead of erroring — the
materialized shape never exceeds the grid's, it equals the requested shape
whenever the range fits, and every materialized cell is drawn from a grid
cell that lies both inside the requested rectangle and inside the grid. -/
theorem to_dataframe_clamping_spec (df : Grid) (tr : TableRange) :
    (tr.to_dataframe df).n_rows ≤ df.n_rows ∧
    (tr.to_dataframe df).n_cols ≤ df.n_cols ∧
    (tr.stop_row ≤ df.n_rows → tr.start_row ≤ tr.stop_row →
      (tr.to_dataframe df).n_rows = tr.stop_row - tr.start_row) ∧
    (tr.stop_col ≤ df.n_cols → tr.start_col ≤ tr.stop_col →
      (tr.to_dataframe df).n_cols = tr.stop_col - tr.start_col) ∧
    (∀ i j, i < (tr.to_dataframe df).n_rows → j < (tr.to_dataframe df).n_cols →
      ∃ r c, tr.start_row ≤ r ∧ r < tr.stop_row ∧ r < df.n_rows ∧
        tr.start_col ≤ c ∧ c < tr.stop_col ∧ c < df.n_cols ∧
        (tr.to_dataframe df).cell i j = df.cell r c) := by
  refine ⟨?_, ?_, ?_, ?_, ?_⟩
  · rw [to_dataframe_n_rows]; omega
  · rw [to_dataframe_n_cols]; omega
  · intro h1 h2; rw [to_dataframe_n_rows]; omega
  · intro h1 h2; rw [to_dataframe_n_cols]; omega
  · intro i j hi hj
    rw [to_dataframe_n_rows] at hi
    rw [to_dataframe_n_cols] at hj
    exact ⟨min tr.start_row df.n_rows + i, min tr.start_col df.n_cols + j,
      by omega, by omega, by omega, by omega, by omega, by omega,
      to_dataframe_cell tr df i j⟩

/-- Witness for C7's amended theorem: the clamped materialization of
`(0,0)-(5,5)` from the 1×1 grid reads its single cell from an in-bounds,
in-rectangle grid cell. -/
theorem to_dataframe_clamping_spec_witness :
    ∃ r c, (TableRange.mk 0 0 5 5).start_row ≤ r ∧
      r < (TableRange.mk 0 0 5 5).stop_row ∧ r < gridOne.n_rows ∧
      (TableRange.mk 0 0 5 5).start_col ≤ c ∧
      c < (TableRange.mk 0 0 5 5).stop_col ∧ c < gridOne.n_cols ∧
      ((TableRange.mk 0 0 5 5).to_dataframe gridOne).cell 0 0 = gridOne.cell r c :=
  (to_dataframe_clamping_spec gridOne (TableRange.mk 0 0 5 5)).2.2.2.2 0 0
    (by decide) (by decide)

/-- C8 counterexample: the constructor performs only the length-2 check, so
it accepts the positions `(1,0)` and `(0,0)` and produces a range with
`start_row = 1 > 0 = stop_row` — construction does not establish the order
invariant. -/
theorem tableRange_ofPos_violates_order_invariant :
    ¬((TableRange.ofPos (1, 0) (0, 0)).start_row ≤
      (TableRange.ofPos (1, 0) (0, 0)).stop_row) := by
  decide

/-- C8 amended: the order invariant `start ≤ stop` is not established by the
constructor, but it does hold for every range the rectangle-growth routine
produces, and hence for every range `find_all_table_range` returns (and
ranges are never mutated afterwards). -/
theorem grown_ranges_satisfy_order_invariant :
    (∀ (sp : Nat × Nat) (a : BoolArray),
      (find_table_range_from_boolean_array_starting_at sp a).start_row ≤
        (find_table_range_from_boolean_array_starting_at sp a).stop_row ∧
      (find_table_range_from_boolean_array_starting_at sp a).start_col ≤
        (find_table_range_from_boolean_array_starting_at sp a).stop_col) ∧
    (∀ (g : Grid) (mr mc : Int) (tr : TableRange),
      tr ∈ find_all_table_range g mr mc →
        tr.start_row ≤ tr.stop_row ∧ tr.start_col ≤ tr.stop_col) := by
  constructor
  · intro sp a
    obtain ⟨sr, sc⟩ := sp
    exact ⟨grow_stop_row_ge sr sc a, grow_stop_col_ge sr sc a⟩
  · intro g mr mc tr h
    have hg := mem_find_all_table_range_good g mr mc tr h
    exact ⟨hg.1, hg.2.1⟩

/-- Witness for C8's amended theorem: the first scenario range satisfies the
order invariant. -/
theorem grown_ranges_satisfy_order_invariant_witness :
    (TableRange.mk 0 0 2 2).start_row ≤ (TableRange.mk 0 0 2 2).stop_row ∧
    (TableRange.mk 0 0 2 2).start_col ≤ (TableRange.mk 0 0 2 2).stop_col :=
  grown_ranges_satisfy_order_invariant.2 scenarioGrid 1 1 (TableRange.mk 0 0 2 2)
    (by decide)

/-- C9: `find_all_table_range` is a pure, deterministic function of its
inputs: two invocations on the same grid with the same thresholds return
identical ordered lists of ranges.  (In the pure embedding this determinism
is definitional.) -/
theorem find_all_table_range_deterministic (g1 g2 : Grid) (mr mc : Int)
    (h : g1 = g2) :
    find_all_table_range g1 mr mc = find_all_table_range g2 mr mc := by
  rw [h]

/-- Witness for C9: two invocations on the scenario grid agree. -/
theorem find_all_table_range_deterministic_witness :
    find_all_table_range scenarioGrid 1 1 = find_all_table_range scenarioGrid 1 1 :=
  find_all_table_range_deterministic scenarioGrid scenarioGrid 1 1 rfl

/-- C10 counterexample: the constructor admits the inverted range
`(1,1)-(0,0)`, whose Python row difference is `0 - 1 = -1 < 0`; with both
minima equal to `0` (so `≤ 0`), `has_min_size` returns `False`, refuting
"returns true whenever both minima are `≤ 0`" for every `TableRange`. -/
theorem has_min_size_nonpositive_minima_counterexample :
    (TableRange.ofPos (1, 1) (0, 0)).has_min_size 0 0 = false := by
  decide

/-- C10 amended: for every `TableRange` satisfying the order invariant
`start ≤ stop` (in particular every degenerate range), `has_min_size`
returns true whenever both minima are non-positive; and a range with stop
equal to start passes exactly when both minima are `≤ 0`, i.e. it fails
exactly when at least one requested minimum is `≥ 1` (so failure is
guaranteed whenever both are `≥ 1`, as with the defaults). -/
theorem has_min_size_nonpositive_minima_spec :
    (∀ (tr : TableRange) (mr mc : Int),
      tr.start_row ≤ tr.stop_row → tr.start_col ≤ tr.stop_col →
      mr ≤ 0 → mc ≤ 0 → tr.has_min_size mr mc = true) ∧
    (∀ (sr sc : Nat) (mr mc : Int),
      (TableRange.mk sr sc sr sc).has_min_size mr mc = true ↔ (mr ≤ 0 ∧ mc ≤ 0)) := by
  constructor
  · intro tr mr mc h1 h2 h3 h4
    rw [has_min_size_iff]
    omega
  · intro sr sc mr mc
    rw [has_min_size_iff]
    dsimp only
    omega

/-- Witness for C10's amended theorem: a well-ordered range passes the test
with minima `(0, -1)`. -/
theorem has_min_size_nonpositive_minima_spec_witness :
    (TableRange.mk 1 2 3 4).has_min_size 0 (-1) = true :=
  has_min_size_nonpositive_minima_spec.1 (TableRange.mk 1 2 3 4) 0 (-1)
    (by decide) (by decide) (by decide) (by decide)
